import Mathlib

/-!
# Job-Sphere: verification of the hiring-workflow engine, the video signaling
# relay and the generic persistence layer

Shallow embedding of the parts of the repository that the specification's
testable properties talk about:

* `services/workflow_service.py` — `WorkflowStage`, `stage_transitions`,
  `advance_candidate_stage`, `_schedule_next_steps` and friends,
  `_find_next_available_slot`, `_get_next_action`, `get_pipeline_overview`;
* `services/interview_service.py` — `check_interview_conflicts`,
  `schedule_interview`, `_update_candidate_pipeline`;
* `services/video_service.py` — the WebSocket signaling relay
  (`handle_hr_connection` / `handle_user_connection`) as a step function on
  explicit relay state over a trace of connection/message events;
* `database/repository.py` — `DatabaseRepository.insert_one` / `find_one` /
  `find_many` / `update_one`.

Modelling conventions:
* `datetime` values are minutes since an epoch whose day 0 is a Monday, so
  `weekday t = (t / 1440) % 7` and a weekend day is `weekday ≥ 5`;
  `timedelta(days=k)` is `1440 * k` minutes and `timedelta(hours=h)` is
  `60 * h` minutes.  `datetime.now()` is an explicit `now : Nat` parameter.
* the document store used by the workflow engine is modelled as typed
  collections inside `WFState`; `find_one`/`update_one` on a collection are
  first-match lookup/update, mirroring the MongoDB calls the services make.
  The workflow-engine functions are modelled with the store available; the
  unavailable-connection behaviour of the persistence layer is modelled
  separately on `Database` below.
* a Python exception caught at an operation boundary (`except ... return
  False`) is modelled by the corresponding `Option`/fallthrough branch
  returning `(false, unchanged state)`.
-/

namespace JobSphere

/-- `WorkflowStage` enum from services/workflow_service.py. -/
inductive WorkflowStage where
  | APPLIED
  | SCREENING
  | TEST
  | INTERVIEW
  | OFFER
  | HIRED
  | REJECTED
deriving DecidableEq, Repr

/-- The `.value` of each enum member. -/
def WorkflowStage.value : WorkflowStage → String
  | .APPLIED => "Applied"
  | .SCREENING => "Screening"
  | .TEST => "Test"
  | .INTERVIEW => "Interview"
  | .OFFER => "Offer"
  | .HIRED => "Hired"
  | .REJECTED => "Rejected"

/-- `WorkflowStage(s)`: value-based enum construction; `none` models the
`ValueError` raised for a string that is not one of the seven values. -/
def WorkflowStage.ofString (s : String) : Option WorkflowStage :=
  if s = "Applied" then some .APPLIED
  else if s = "Screening" then some .SCREENING
  else if s = "Test" then some .TEST
  else if s = "Interview" then some .INTERVIEW
  else if s = "Offer" then some .OFFER
  else if s = "Hired" then some .HIRED
  else if s = "Rejected" then some .REJECTED
  else none

/-- `self.stage_transitions` table from `WorkflowService.__init__`. -/
def stage_transitions : WorkflowStage → List WorkflowStage
  | .APPLIED => [.SCREENING, .REJECTED]
  | .SCREENING => [.TEST, .INTERVIEW, .REJECTED]
  | .TEST => [.INTERVIEW, .REJECTED]
  | .INTERVIEW => [.OFFER, .REJECTED]
  | .OFFER => [.HIRED, .REJECTED]
  | .HIRED => []
  | .REJECTED => []

/-- One element of a pipeline's `stage_history`. -/
structure HistoryEntry where
  stage : String
  timestamp : Nat
  notes : String
deriving DecidableEq, Repr

/-- `CandidatePipeline` document (the fields the workflow engine reads or
writes; database/models.py defaults `next_action = ""`,
`next_action_date = None`). -/
structure Pipeline where
  application_id : String
  job_id : String
  candidate_id : String
  current_stage : String
  stage_history : List HistoryEntry
  next_action : String
  next_action_date : Option Nat
deriving DecidableEq, Repr

/-- An `applications` document (fields the engine reads or writes). -/
structure AppRecord where
  id : String
  job_id : String
  user_id : String
  hr_id : String
  status : String
deriving DecidableEq, Repr

/-- An `interviews` document (fields used by conflict checking). -/
structure InterviewRec where
  application_id : String
  job_id : String
  candidate_id : String
  hr_id : String
  interview_type : String
  scheduled_datetime : Nat
  duration_minutes : Nat
  status : String
deriving DecidableEq, Repr

/-- A `schedule_events` document (fields relevant to the engine's inserts). -/
structure EventRec where
  job_id : String
  event_type : String
  scheduled_datetime : Nat
deriving DecidableEq, Repr

/-- A `job_offers` document. -/
structure OfferRec where
  application_id : String
  job_id : String
  candidate_id : String
  hr_id : String
  status : String
  expiry_date : Nat
deriving DecidableEq, Repr

/-- A `tests` document (fields used by `_schedule_test`'s lookup). -/
structure TestRec where
  job_id : String
  status : String
deriving DecidableEq, Repr

/-- The collections of the document store that the workflow engine touches. -/
structure WFState where
  pipelines : List Pipeline
  applications : List AppRecord
  interviews : List InterviewRec
  tests : List TestRec
  schedule_events : List EventRec
  job_offers : List OfferRec
deriving DecidableEq, Repr

/-- `update_one` on a typed collection: apply `f` to the first document
matching `p` (MongoDB `$set` on the single matched document). -/
def updateFirst {α : Type} (p : α → Bool) (f : α → α) : List α → List α
  | [] => []
  | x :: xs => if p x then f x :: xs else x :: updateFirst p f xs

/-- `find_one("candidate_pipeline", {"application_id": application_id})`. -/
def findPipeline (st : WFState) (application_id : String) : Option Pipeline :=
  st.pipelines.find? (fun p => p.application_id == application_id)

/-- `find_one("applications", {"_id": ObjectId(application_id)})`. -/
def findApplication (st : WFState) (application_id : String) : Option AppRecord :=
  st.applications.find? (fun a => a.id == application_id)

namespace InterviewService

/-- `InterviewService.check_interview_conflicts`: an existing interview of the
same HR with status `Scheduled`/`In Progress` conflicts when its
`scheduled_datetime` satisfies `start - duration <= t < start + duration`
(the Mongo query uses `$gte` on the lower bound and `$lt` on `end_time`). -/
def check_interview_conflicts (interviews : List InterviewRec) (hr_id : String)
    (scheduled_datetime : Nat) (duration_minutes : Nat) : Bool :=
  let start_time : Int := scheduled_datetime
  let end_time : Int := start_time + duration_minutes
  let conflicting := interviews.filter (fun iv =>
    iv.hr_id == hr_id
      && (iv.status == "Scheduled" || iv.status == "In Progress")
      && decide ((iv.scheduled_datetime : Int) < end_time)
      && decide (start_time - (duration_minutes : Int) ≤ (iv.scheduled_datetime : Int)))
  conflicting.length > 0

/-- `InterviewService._update_candidate_pipeline`: appends a history entry and
overwrites `current_stage` on the existing pipeline, or creates a fresh
pipeline document when none exists. -/
def update_candidate_pipeline (now : Nat) (st : WFState)
    (application_id stage : String) : WFState :=
  match findPipeline st application_id with
  | some pipeline_data =>
      let stage_history := pipeline_data.stage_history ++
        [⟨stage, now, "Automated update: " ++ stage⟩]
      let pipelines := updateFirst (fun p => p.application_id == application_id)
        (fun p => { p with current_stage := stage, stage_history := stage_history })
        st.pipelines
      { st with pipelines := pipelines }
  | none =>
      let newPipeline : Pipeline :=
        { application_id := application_id
          job_id := match findApplication st application_id with
                    | some a => a.job_id
                    | none => ""
          candidate_id := match findApplication st application_id with
                          | some a => a.user_id
                          | none => ""
          current_stage := stage
          stage_history := [⟨stage, now, "Initial stage: " ++ stage⟩]
          next_action := ""
          next_action_date := none }
      { st with pipelines := st.pipelines ++ [newPipeline] }

/-- `InterviewService.schedule_interview`: inserts the interview with status
`Scheduled`, mirrors `"Interview Scheduled"` onto the application record and
calls `_update_candidate_pipeline` with `"Interview Scheduled"`. -/
def schedule_interview (now : Nat) (st : WFState)
    (application_id job_id candidate_id hr_id interview_type : String)
    (scheduled_datetime duration_minutes : Nat) : WFState :=
  let interview : InterviewRec :=
    { application_id := application_id, job_id := job_id,
      candidate_id := candidate_id, hr_id := hr_id,
      interview_type := interview_type,
      scheduled_datetime := scheduled_datetime,
      duration_minutes := duration_minutes, status := "Scheduled" }
  let st1 := { st with interviews := st.interviews ++ [interview] }
  let applications := updateFirst (fun a => a.id == application_id)
    (fun a => { a with status := "Interview Scheduled" }) st1.applications
  let st2 := { st1 with applications := applications }
  update_candidate_pipeline now st2 application_id "Interview Scheduled"

end InterviewService

namespace WorkflowService

open InterviewService

/-- Weekday of a time value; day 0 of the epoch is a Monday, so `5`/`6` are
Saturday/Sunday as in Python's `datetime.weekday()`. -/
def weekday (t : Nat) : Nat := (t / 1440) % 7

/-- `WorkflowService._find_next_available_slot`: scan `preferred_days` days
from `now`, skip weekends, try the 1-hour slots at 9:00-16:00, and return the
first one with no interview conflict for the HR. -/
def find_next_available_slot (interviews : List InterviewRec) (hr_id : String)
    (now : Nat) (preferred_days : Nat) : Option Nat :=
  (List.range preferred_days).findSome? (fun day_offset =>
    let candidate_date := now + 1440 * day_offset
    if weekday candidate_date ≥ 5 then none
    else
      ((List.range 8).map (fun i => 9 + i)).findSome? (fun hour =>
        let slot_time := (candidate_date / 1440) * 1440 + hour * 60
        if check_interview_conflicts interviews hr_id slot_time 60 then none
        else some slot_time))

/-- `WorkflowService._get_next_action` static stage→(action, date) table. -/
def get_next_action (now : Nat) : WorkflowStage → String × Option Nat
  | .APPLIED => ("Initial screening", some (now + 1440))
  | .SCREENING => ("Schedule assessment test", some (now + 2 * 1440))
  | .TEST => ("Schedule interview", some (now + 3 * 1440))
  | .INTERVIEW => ("Prepare job offer", some (now + 2 * 1440))
  | .OFFER => ("Await candidate response", some (now + 7 * 1440))
  | .HIRED => ("Onboarding preparation", some (now + 1440))
  | .REJECTED => ("Send rejection notification", some (now + 24 * 60))

/-- `WorkflowService._schedule_screening`: insert a screening event 24h out
(no pipeline write). -/
def schedule_screening (now : Nat) (st : WFState) (application_id : String) :
    WFState :=
  match findApplication st application_id with
  | none => st
  | some application_data =>
      { st with schedule_events := st.schedule_events ++
          [⟨application_data.job_id, "Screening", now + 24 * 60⟩] }

/-- `WorkflowService._schedule_test`: when an Active test exists for the job,
create the test event 2 days out (no pipeline write). -/
def schedule_test (now : Nat) (st : WFState) (application_id : String) :
    WFState :=
  match findApplication st application_id with
  | none => st
  | some application_data =>
      match st.tests.find? (fun t =>
          t.job_id == application_data.job_id && t.status == "Active") with
      | none => st
      | some _ =>
          { st with schedule_events := st.schedule_events ++
              [⟨application_data.job_id, "Test", now + 2 * 1440⟩] }

/-- `WorkflowService._schedule_interview`: look up the application, search for
the HR's next open slot, and when one exists book it through
`interview_service.schedule_interview` (which writes the pipeline again). -/
def schedule_interview_step (now : Nat) (st : WFState) (application_id : String) :
    WFState :=
  match findApplication st application_id with
  | none => st
  | some application_data =>
      match find_next_available_slot st.interviews application_data.hr_id now 3 with
      | none => st
      | some interview_time =>
          InterviewService.schedule_interview now st application_id
            application_data.job_id application_data.user_id
            application_data.hr_id "Technical" interview_time 60

/-- `WorkflowService._prepare_offer`: insert a Draft `JobOffer` expiring in 7
days plus a 48h-out offer-preparation event (no pipeline write). -/
def prepare_offer (now : Nat) (st : WFState) (application_id : String) :
    WFState :=
  match findApplication st application_id with
  | none => st
  | some application_data =>
      let offer : OfferRec :=
        ⟨application_id, application_data.job_id, application_data.user_id,
          application_data.hr_id, "Draft", now + 7 * 1440⟩
      let event : EventRec := ⟨application_data.job_id, "Offer", now + 48 * 60⟩
      let st1 := { st with job_offers := st.job_offers ++ [offer] }
      { st1 with schedule_events := st1.schedule_events ++ [event] }

/-- `WorkflowService._schedule_next_steps` dispatch table. -/
def schedule_next_steps (now : Nat) (st : WFState) (application_id : String) :
    WorkflowStage → WFState
  | .SCREENING => schedule_screening now st application_id
  | .TEST => schedule_test now st application_id
  | .INTERVIEW => schedule_interview_step now st application_id
  | .OFFER => prepare_offer now st application_id
  | _ => st

/-- `WorkflowService.advance_candidate_stage`.  Returns the boolean result
together with the resulting store state.  A missing pipeline, a stage string
rejected by `WorkflowStage(...)` (the `ValueError` caught by the outer
`except`) or an invalid transition all yield `(false, st)` with the store
untouched. -/
def advance_candidate_stage (now : Nat) (st : WFState)
    (application_id new_stage notes : String) (auto_schedule : Bool) :
    Bool × WFState :=
  match findPipeline st application_id with
  | none => (false, st)
  | some pipeline_data =>
    match WorkflowStage.ofString pipeline_data.current_stage,
          WorkflowStage.ofString new_stage with
    | some current_stage, some target_stage =>
      if target_stage ∈ stage_transitions current_stage then
        let stage_history := pipeline_data.stage_history ++
          [⟨target_stage.value, now,
            if notes == "" then
              "Advanced from " ++ current_stage.value ++ " to " ++ target_stage.value
            else notes⟩]
        let next := get_next_action now target_stage
        let pipelines := updateFirst
          (fun p => p.application_id == application_id)
          (fun p => { p with current_stage := target_stage.value,
                             stage_history := stage_history,
                             next_action := next.1,
                             next_action_date := next.2 }) st.pipelines
        let st1 := { st with pipelines := pipelines }
        let applications := updateFirst
          (fun a => a.id == application_id)
          (fun a => { a with status := target_stage.value }) st1.applications
        let st2 := { st1 with applications := applications }
        let st3 := if auto_schedule then
            schedule_next_steps now st2 application_id target_stage
          else st2
        (true, st3)
      else (false, st)
    | _, _ => (false, st)

end WorkflowService

/-! ## Video signaling relay (services/video_service.py)

`VideoService` keeps six per-`application_id` maps.  Socket handles carry no
information the relay logic inspects, so a registered socket is modelled by
the presence of its `application_id` in the side's registration list.  The
relay's externally visible behaviour is the list of messages it sends; each
processed event yields the deliveries it causes, tagged with the destination
side.  Keepalive pings, logging and exception swallowing around `send` do not
change the relay state and are not modelled. -/

namespace VideoService

/-- Which peer a socket belongs to. -/
inductive Side where
  | hr
  | user
deriving DecidableEq, Repr

/-- Incoming JSON frames the relay dispatches on. -/
inductive Msg where
  | offer (sdp : String)
  | answer (sdp : String)
  | ice (c : String)
  | ping
deriving DecidableEq, Repr

/-- Frames the relay sends out. -/
inductive OutMsg where
  | hr_online
  | user_online
  | offer (sdp : String)
  | answer (sdp : String)
  | ice (c : String)
deriving DecidableEq, Repr

/-- Is an outgoing frame an ICE frame? -/
def OutMsg.isIce : OutMsg → Bool
  | .ice _ => true
  | _ => false

/-- Is an outgoing frame an offer frame? -/
def OutMsg.isOffer : OutMsg → Bool
  | .offer _ => true
  | _ => false

/-- Is an outgoing frame an answer frame? -/
def OutMsg.isAnswer : OutMsg → Bool
  | .answer _ => true
  | _ => false

/-- One message sent by the relay to the socket of `side` registered for
`app`. -/
structure Delivery where
  side : Side
  app : String
  msg : OutMsg
deriving DecidableEq, Repr

/-- The six per-application maps of `VideoService.__init__`. -/
structure RelayState where
  hr_sockets : List String
  user_sockets : List String
  pending_offers : List (String × String)
  pending_answers : List (String × String)
  pending_ice : List (String × List String)
  pending_ice_hr : List (String × List String)
deriving DecidableEq, Repr

/-- The state of a fresh `VideoService()`. -/
def relayInit : RelayState := ⟨[], [], [], [], [], []⟩

/-- Python `d.get(k)` / `k in d` on an association list with unique keys. -/
def lookup {α : Type} (m : List (String × α)) (k : String) : Option α :=
  (m.find? (fun kv => kv.1 == k)).map Prod.snd

/-- Python `d[k] = v`: replace the value if the key exists, else add it. -/
def setKey {α : Type} (m : List (String × α)) (k : String) (v : α) :
    List (String × α) :=
  match lookup m k with
  | some _ => updateFirst (fun kv => kv.1 == k) (fun kv => (kv.1, v)) m
  | none => m ++ [(k, v)]

/-- Python `del d[k]`. -/
def delKey {α : Type} (m : List (String × α)) (k : String) :
    List (String × α) :=
  m.filter (fun kv => !(kv.1 == k))

/-- Python `d.setdefault(k, []).append(c)`. -/
def appendKey (m : List (String × List String)) (k : String) (c : String) :
    List (String × List String) :=
  match lookup m k with
  | some _ => updateFirst (fun kv => kv.1 == k) (fun kv => (kv.1, kv.2 ++ [c])) m
  | none => m ++ [(k, [c])]

/-- Socket registration `self.xxx_sockets[app_id] = ws`. -/
def addSock (l : List String) (k : String) : List String :=
  if k ∈ l then l else l ++ [k]

/-- Socket removal `self.xxx_sockets.pop(app_id, None)`. -/
def removeSock (l : List String) (k : String) : List String :=
  l.filter (fun x => !(x == k))

/-- Events driving the relay: a side connecting, a frame received from a
connected side's socket, and a side's receive loop ending (disconnect). -/
inductive Event where
  | connect (s : Side) (app : String)
  | recv (s : Side) (app : String) (m : Msg)
  | disconnect (s : Side) (app : String)
deriving DecidableEq, Repr

/-- Prologue of `handle_hr_connection`: register the HR socket, notify a
connected candidate that HR is online, and flush the buffered candidate→HR
ICE candidates (the buffer is read but not cleared; `pending_answers` is not
read at all). -/
def connectHR (st : RelayState) (app : String) : RelayState × List Delivery :=
  let st1 := { st with hr_sockets := addSock st.hr_sockets app }
  let notifyOnline : List Delivery :=
    if app ∈ st1.user_sockets then [⟨.user, app, .hr_online⟩] else []
  let flushedIce : List Delivery :=
    match lookup st1.pending_ice_hr app with
    | some cs => cs.map (fun c => ⟨.hr, app, .ice c⟩)
    | none => []
  (st1, notifyOnline ++ flushedIce)

/-- Prologue of `handle_user_connection`: register the candidate socket, send
and delete a pending offer, flush the buffered HR→candidate ICE (read but not
cleared), then notify a connected HR that the user joined. -/
def connectUser (st : RelayState) (app : String) : RelayState × List Delivery :=
  let st1 := { st with user_sockets := addSock st.user_sockets app }
  let offerOut : List Delivery :=
    match lookup st1.pending_offers app with
    | some o => [⟨.user, app, .offer o⟩]
    | none => []
  let st2 :=
    match lookup st1.pending_offers app with
    | some _ => { st1 with pending_offers := delKey st1.pending_offers app }
    | none => st1
  let flushedIce : List Delivery :=
    match lookup st2.pending_ice app with
    | some cs => cs.map (fun c => ⟨.user, app, .ice c⟩)
    | none => []
  let notifyOnline : List Delivery :=
    if app ∈ st2.hr_sockets then [⟨.hr, app, .user_online⟩] else []
  (st2, offerOut ++ flushedIce ++ notifyOnline)

/-- Message dispatch of the HR receive loop in `handle_hr_connection`. -/
def recvHR (st : RelayState) (app : String) : Msg → RelayState × List Delivery
  | .offer sdp =>
      if app ∈ st.user_sockets then (st, [⟨.user, app, .offer sdp⟩])
      else ({ st with pending_offers := setKey st.pending_offers app sdp }, [])
  | .ice c =>
      let st1 := { st with pending_ice := appendKey st.pending_ice app c }
      if app ∈ st1.user_sockets then (st1, [⟨.user, app, .ice c⟩]) else (st1, [])
  | _ => (st, [])

/-- Message dispatch of the candidate receive loop in
`handle_user_connection`. -/
def recvUser (st : RelayState) (app : String) : Msg → RelayState × List Delivery
  | .answer sdp =>
      if app ∈ st.hr_sockets then (st, [⟨.hr, app, .answer sdp⟩])
      else ({ st with pending_answers := setKey st.pending_answers app sdp }, [])
  | .ice c =>
      let st1 := { st with pending_ice_hr := appendKey st.pending_ice_hr app c }
      if app ∈ st1.hr_sockets then (st1, [⟨.hr, app, .ice c⟩]) else (st1, [])
  | _ => (st, [])

/-- One relay step: dispatch an event to the handler code it triggers. -/
def step (st : RelayState) : Event → RelayState × List Delivery
  | .connect .hr app => connectHR st app
  | .connect .user app => connectUser st app
  | .recv .hr app m => recvHR st app m
  | .recv .user app m => recvUser st app m
  | .disconnect .hr app =>
      ({ st with hr_sockets := removeSock st.hr_sockets app }, [])
  | .disconnect .user app =>
      ({ st with user_sockets := removeSock st.user_sockets app }, [])

/-- Run the relay over a trace of events, collecting all deliveries. -/
def run (st : RelayState) : List Event → RelayState × List Delivery
  | [] => (st, [])
  | e :: es =>
      let r1 := step st e
      let r2 := run r1.1 es
      (r2.1, r1.2 ++ r2.2)

end VideoService

/-! ## Generic persistence layer (database/repository.py, `DatabaseRepository`)

`db.client is None` (no connection) is the `connected := false` flag.  A
collection that exists on the `db` object is an entry of `collections`;
`getattr(self.db, collection, None)` returning `None` is a missing entry.
Documents are flat string-keyed records and a MongoDB query is a predicate on
documents.  A raised exception is `Except.error` with the exception's
message. -/

namespace DatabaseRepository

/-- A stored document: a flat field map. -/
def Doc := List (String × String)
deriving instance DecidableEq, Repr for Doc

/-- The database handle: connection flag plus named collections. -/
structure Database where
  connected : Bool
  collections : List (String × List Doc)
deriving DecidableEq, Repr

/-- `getattr(self.db, collection, None)`. -/
def getCollection (db : Database) (collection : String) : Option (List Doc) :=
  (db.collections.find? (fun kv => kv.1 == collection)).map Prod.snd

/-- Replace the contents of a collection. -/
def setCollection (db : Database) (collection : String) (docs : List Doc) :
    Database :=
  let collections := updateFirst (fun kv => kv.1 == collection)
    (fun kv => (kv.1, docs)) db.collections
  { db with collections := collections }

/-- MongoDB `$set`: overwrite or add each field of `update` on `doc`. -/
def applySet (update : Doc) (doc : Doc) : Doc :=
  update.foldl (fun d kv => VideoService.setKey d kv.1 kv.2) doc

/-- `DatabaseRepository.insert_one`: RAISES (`Except.error`) when the client
is unavailable or the collection is missing; on success returns the inserted
id and the new database. -/
def insert_one (db : Database) (collection : String) (document : Doc) :
    Except String (String × Database) :=
  if db.connected = false then
    Except.error "Database connection not available"
  else
    match getCollection db collection with
    | none => Except.error ("Collection " ++ collection ++ " not available")
    | some docs =>
        Except.ok (toString docs.length,
          setCollection db collection (docs ++ [document]))

/-- `DatabaseRepository.find_one`: `none` when the client is unavailable or
the collection is missing, else the first document matching the query. -/
def find_one (db : Database) (collection : String) (query : Doc → Bool) :
    Option Doc :=
  if db.connected = false then none
  else
    match getCollection db collection with
    | none => none
    | some docs => docs.find? query

/-- `DatabaseRepository.find_many` (without the optional sort): empty when the
client is unavailable or the collection is missing, else all matches. -/
def find_many (db : Database) (collection : String) (query : Doc → Bool) :
    List Doc :=
  if db.connected = false then []
  else
    match getCollection db collection with
    | none => []
    | some docs => docs.filter query

/-- `DatabaseRepository.update_one`: `false` when the client is unavailable or
the collection is missing; else `$set` on the first match, returning
`modified_count > 0` (whether some document actually changed). -/
def update_one (db : Database) (collection : String) (query : Doc → Bool)
    (update : Doc) : Bool × Database :=
  if db.connected = false then (false, db)
  else
    match getCollection db collection with
    | none => (false, db)
    | some docs =>
        let docs1 := updateFirst query (applySet update) docs
        (decide (docs1 ≠ docs), setCollection db collection docs1)

end DatabaseRepository

/-! ## Pipeline overview (`WorkflowService.get_pipeline_overview`)

The records the store hands back are arbitrary: the code skips entries that
are not dictionaries and defaults a missing `current_stage` to `"Unknown"`.
`none` as input models `find_many` (or the iteration) raising, which the
`except` branch converts to the safe zero structure. -/

namespace WorkflowService

/-- One record returned by `find_many("candidate_pipeline", ...)`: either not
a dictionary (skipped with a warning) or a dictionary whose `current_stage`
may be absent. -/
inductive PipeDoc where
  | bad
  | dict (current_stage : Option String)
deriving DecidableEq, Repr

/-- `stage_counts[stage] = stage_counts.get(stage, 0) + 1` on a dict modelled
as an insertion-ordered association list. -/
def bumpCount : List (String × Nat) → String → List (String × Nat)
  | [], s => [(s, 1)]
  | (k, v) :: rest, s =>
      if k = s then (k, v + 1) :: rest else (k, v) :: bumpCount rest s

/-- The structure `get_pipeline_overview` returns. -/
structure Overview where
  total_candidates : Nat
  by_stage : List (String × Nat)
  conversion_rates : List (String × ℚ)
deriving DecidableEq, Repr

/-- The loop body of `get_pipeline_overview`: skip a non-dictionary record,
otherwise bump the count of the record's stage (default `"Unknown"`) and the
running `total_candidates`. -/
def countStage (acc : List (String × Nat) × Nat) (pd : PipeDoc) :
    List (String × Nat) × Nat :=
  match pd with
  | .bad => acc
  | .dict cs => (bumpCount acc.1 (cs.getD "Unknown"), acc.2 + 1)

/-- `WorkflowService.get_pipeline_overview` on the records the store returned;
`none` models an internal error, answered with the safe default structure. -/
def get_pipeline_overview (pipelines : Option (List PipeDoc)) : Overview :=
  match pipelines with
  | none => ⟨0, [], []⟩
  | some records =>
      let counted := records.foldl countStage ([], 0)
      let conversion_rates :=
        if counted.2 > 0 then
          counted.1.map (fun kv => (kv.1, ((kv.2 : ℚ) / (counted.2 : ℚ)) * 100))
        else []
      ⟨counted.2, counted.1, conversion_rates⟩

end WorkflowService

/-! ## Specification-worded conflict predicate and concrete instances -/

/-- The slot-conflict predicate exactly as the specification words it, for
comparison with `InterviewService.check_interview_conflicts`: an interview
conflicts when any existing `Scheduled`/`In Progress` interview for that HR
has its scheduled time in the CLOSED interval
`[slot_start - duration, slot_start + duration]`. -/
def specConflictsClosed (interviews : List InterviewRec) (hr_id : String)
    (slot_start duration : Nat) : Bool :=
  interviews.any (fun iv =>
    iv.hr_id == hr_id
      && (iv.status == "Scheduled" || iv.status == "In Progress")
      && decide ((slot_start : Int) - duration ≤ (iv.scheduled_datetime : Int))
      && decide ((iv.scheduled_datetime : Int) ≤ (slot_start : Int) + duration))

/-- A freshly initiated pipeline at `Applied`, as `initiate_hiring_workflow`
creates it. -/
def examplePipeline : Pipeline :=
  ⟨"a1", "j1", "u1", "Applied", [⟨"Applied", 0, "Application received"⟩],
    "Initial screening", some 1440⟩

/-- A store holding `examplePipeline` and its application record. -/
def exampleState : WFState :=
  ⟨[examplePipeline], [⟨"a1", "j1", "u1", "h1", "Applied"⟩], [], [], [], []⟩

/-- A pipeline whose candidate has reached the `Test` stage. -/
def testStagePipeline : Pipeline :=
  ⟨"a1", "j1", "u1", "Test", [⟨"Test", 0, "Test stage"⟩], "Schedule interview",
    some 4320⟩

/-- A store holding `testStagePipeline` and its application record. -/
def testStageState : WFState :=
  ⟨[testStagePipeline], [⟨"a1", "j1", "u1", "h1", "Test"⟩], [], [], [], []⟩

/-- An existing interview scheduled exactly at `slot_start + duration` for the
slot probe at 8:00 with a 60-minute duration (9:00, minute 540). -/
def boundaryInterview : InterviewRec :=
  ⟨"a2", "j1", "u2", "h1", "Technical", 540, 60, "Scheduled"⟩

/-- A relay state holding one buffered offer for `"a"`. -/
def offerBufferedState : VideoService.RelayState :=
  ⟨[], [], [("a", "SDP-OFFER")], [], [], []⟩

/-- A database handle whose client is unavailable. -/
def unavailableDb : DatabaseRepository.Database :=
  ⟨false, [("users", [])]⟩

/-! ## General lemmas -/

/-- `update_one` and `find_one` with the same query touch the same document:
when the update preserves the query, finding after updating returns the
updated document. -/
theorem find?_updateFirst {α : Type} (p : α → Bool) (f : α → α) (l : List α)
    (hf : ∀ a, p a = true → p (f a) = true) :
    (updateFirst p f l).find? p = (l.find? p).map f := by
  induction l with
  | nil => rfl
  | cons x xs ih =>
      by_cases hx : p x = true
      · simp [updateFirst, hx, List.find?_cons_of_pos, hf x hx]
      · have hx' : p x = false := by
          cases h : p x
          · rfl
          · exact absurd h hx
        simp [updateFirst, hx', List.find?_cons_of_neg, ih]

/-- `WorkflowStage(s)` succeeds exactly on the member whose `.value` is `s`. -/
theorem ofString_value {s : String} {t : WorkflowStage}
    (h : WorkflowStage.ofString s = some t) : t.value = s := by
  unfold WorkflowStage.ofString at h
  split_ifs at h <;>
    first
      | exact Option.noConfusion h
      | (injection h with h
         subst h
         simp_all [WorkflowStage.value])

/-- `WorkflowStage(t.value)` recovers `t`. -/
theorem value_ofString (t : WorkflowStage) :
    WorkflowStage.ofString t.value = some t := by
  cases t <;> rfl

/-! ## C1 and C9: rejection paths of `advance_candidate_stage` -/

/-- C1: for every pipeline and every requested stage, if
`(current_stage, new_stage)` is not an edge of the allowed-transition table,
`advance_candidate_stage` returns `false` and the store — in particular the
pipeline record, its `stage_history`, `current_stage`, `next_action` and
`next_action_date` — is left completely unchanged. -/
theorem invalid_transition_rejected (now : Nat) (st : WFState)
    (application_id new_stage notes : String) (auto_schedule : Bool)
    (pd : Pipeline) (cur tgt : WorkflowStage)
    (h1 : findPipeline st application_id = some pd)
    (h2 : WorkflowStage.ofString pd.current_stage = some cur)
    (h3 : WorkflowStage.ofString new_stage = some tgt)
    (h4 : tgt ∉ stage_transitions cur) :
    WorkflowService.advance_candidate_stage now st application_id new_stage
      notes auto_schedule = (false, st) := by
  unfold WorkflowService.advance_candidate_stage
  rw [h1]
  dsimp only
  rw [h2, h3]
  simp [h4]

/-- Witness for C1: `Applied → Offer` is rejected and the store is kept. -/
theorem invalid_transition_rejected_witness :
    WorkflowService.advance_candidate_stage 0 exampleState "a1" "Offer" "" true
      = (false, exampleState) :=
  invalid_transition_rejected 0 exampleState "a1" "Offer" "" true
    examplePipeline .APPLIED .OFFER (by decide) (by decide) (by decide)
    (by decide)

/-- C9: for every `new_stage` string that is not one of the seven stage
values, the stage-string-to-enum conversion fails before any write, the
exception is caught at the operation boundary, and `advance_candidate_stage`
returns `false` with the store unchanged. -/
theorem unknown_stage_rejected (now : Nat) (st : WFState)
    (application_id new_stage notes : String) (auto_schedule : Bool)
    (h : WorkflowStage.ofString new_stage = none) :
    WorkflowService.advance_candidate_stage now st application_id new_stage
      notes auto_schedule = (false, st) := by
  unfold WorkflowService.advance_candidate_stage
  cases hfp : findPipeline st application_id with
  | none => rfl
  | some pd =>
      dsimp only
      cases hc : WorkflowStage.ofString pd.current_stage <;> simp [h]

/-- Witness for C9: the non-enum string `"Interview Scheduled"` is rejected
with the store kept. -/
theorem unknown_stage_rejected_witness :
    WorkflowStage.ofString "Interview Scheduled" = none ∧
    WorkflowService.advance_candidate_stage 0 exampleState "a1"
      "Interview Scheduled" "" true = (false, exampleState) :=
  ⟨by decide, unknown_stage_rejected 0 exampleState "a1" "Interview Scheduled"
    "" true (by decide)⟩

/-! ## C2 and C3: the shape of a successful transition -/

/-- Shared postcondition of a successful `advance_candidate_stage` call with
`auto_schedule = false`: the pipeline that was found is replaced by the same
record with the target stage written and one history entry appended. -/
theorem advance_success_shape (now : Nat) (st : WFState)
    (application_id new_stage notes : String) (st' : WFState)
    (h : WorkflowService.advance_candidate_stage now st application_id
      new_stage notes false = (true, st')) :
    ∃ pd cur tgt,
      findPipeline st application_id = some pd ∧
      WorkflowStage.ofString pd.current_stage = some cur ∧
      WorkflowStage.ofString new_stage = some tgt ∧
      tgt ∈ stage_transitions cur ∧
      findPipeline st' application_id = some
        { pd with
            current_stage := tgt.value
            stage_history := pd.stage_history ++
              [⟨tgt.value, now,
                if notes == "" then
                  "Advanced from " ++ cur.value ++ " to " ++ tgt.value
                else notes⟩]
            next_action := (WorkflowService.get_next_action now tgt).1
            next_action_date := (WorkflowService.get_next_action now tgt).2 } := by
  unfold WorkflowService.advance_candidate_stage at h
  cases hfp : findPipeline st application_id with
  | none =>
      rw [hfp] at h
      simp at h
  | some pd =>
      rw [hfp] at h
      dsimp only at h
      cases hc : WorkflowStage.ofString pd.current_stage with
      | none =>
          rw [hc] at h
          cases ht : WorkflowStage.ofString new_stage <;> rw [ht] at h <;>
            simp at h
      | some cur =>
          rw [hc] at h
          cases ht : WorkflowStage.ofString new_stage with
          | none =>
              rw [ht] at h
              simp at h
          | some tgt =>
              rw [ht] at h
              dsimp only at h
              by_cases hmem : tgt ∈ stage_transitions cur
              · rw [if_pos hmem] at h
                simp only [Bool.false_eq_true, if_false] at h
                have hst := congrArg Prod.snd h
                dsimp only at hst
                refine ⟨pd, cur, tgt, rfl, hc, rfl, hmem, ?_⟩
                rw [← hst]
                unfold findPipeline
                rw [find?_updateFirst]
                · rw [show st.pipelines.find?
                      (fun p => p.application_id == application_id)
                    = some pd from hfp]
                  rfl
                · exact fun a ha => ha
              · rw [if_neg hmem] at h
                simp at h

/-- C2 counterexample: a workflow-external operation,
`interview_service._update_candidate_pipeline`, mutates the pipeline record
and writes a `current_stage` ("Interview Scheduled") that is not one of the
seven stage values. -/
theorem interview_service_writes_foreign_stage :
    (findPipeline (InterviewService.update_candidate_pipeline 0 exampleState
        "a1" "Interview Scheduled") "a1").map Pipeline.current_stage
      = some "Interview Scheduled" ∧
    WorkflowStage.ofString "Interview Scheduled" = none := by
  exact ⟨rfl, rfl⟩

/-- C2 (amended): after any successful `advance_candidate_stage` call with
`auto_schedule = false`, the pipeline's `current_stage` is one of the seven
stage values.  (The unrestricted claim fails:
`interview_service._update_candidate_pipeline` and
`offer_service._update_candidate_pipeline` also write `current_stage` /
`stage_history`, with strings outside the seven-value set.) -/
theorem advance_writes_valid_stage (now : Nat) (st : WFState)
    (application_id new_stage notes : String) (st' : WFState)
    (h : WorkflowService.advance_candidate_stage now st application_id
      new_stage notes false = (true, st')) :
    ∃ pd' tgt, findPipeline st' application_id = some pd' ∧
      WorkflowStage.ofString pd'.current_stage = some tgt := by
  obtain ⟨pd, cur, tgt, _, _, _, _, h5⟩ :=
    advance_success_shape now st application_id new_stage notes st' h
  exact ⟨_, tgt, h5, value_ofString tgt⟩

/-- Witness for C2 (amended) at a concrete `Applied → Screening` call. -/
theorem advance_writes_valid_stage_witness :
    WorkflowService.advance_candidate_stage 0 exampleState "a1" "Screening" ""
        false
      = (true, (WorkflowService.advance_candidate_stage 0 exampleState "a1"
        "Screening" "" false).2) ∧
    (∃ pd' tgt, findPipeline (WorkflowService.advance_candidate_stage 0
        exampleState "a1" "Screening" "" false).2 "a1" = some pd' ∧
      WorkflowStage.ofString pd'.current_stage = some tgt) :=
  ⟨by decide, advance_writes_valid_stage 0 exampleState "a1" "Screening" "" _
    (by decide)⟩

/-- C3 counterexample: with `auto_schedule = true` a successful
`Test → Interview` transition appends TWO history entries (the transition
entry and the `"Interview Scheduled"` entry written by the auto-booked
interview), and the final `current_stage` is `"Interview Scheduled"`, not the
requested `new_stage`. -/
theorem auto_schedule_appends_twice :
    (WorkflowService.advance_candidate_stage 0 testStageState "a1" "Interview"
        "" true).1 = true ∧
    (findPipeline (WorkflowService.advance_candidate_stage 0 testStageState
        "a1" "Interview" "" true).2 "a1").map
        (fun p => (p.stage_history.length, p.current_stage))
      = some (3, "Interview Scheduled") := by
  exact ⟨rfl, rfl⟩

/-- C3 (amended): for every successful
`advance_candidate_stage(application_id, new_stage, notes, auto_schedule)`
call with `auto_schedule = false`, `stage_history` afterwards is the prior
history with exactly one entry appended, the appended entry's stage equals
`new_stage`, and `current_stage` equals the stage of the last element of
`stage_history`.  (With `auto_schedule = true` and `new_stage = "Interview"`
the auto-booked interview appends a second entry.) -/
theorem advance_appends_exactly_one (now : Nat) (st : WFState)
    (application_id new_stage notes : String) (st' : WFState)
    (h : WorkflowService.advance_candidate_stage now st application_id
      new_stage notes false = (true, st')) :
    ∃ pd pd', findPipeline st application_id = some pd ∧
      findPipeline st' application_id = some pd' ∧
      ∃ e, pd'.stage_history = pd.stage_history ++ [e] ∧
        e.stage = new_stage ∧
        pd'.current_stage = new_stage := by
  obtain ⟨pd, cur, tgt, h1, _, h3, _, h5⟩ :=
    advance_success_shape now st application_id new_stage notes st' h
  exact ⟨pd, _, h1, h5, ⟨_, rfl, ofString_value h3, ofString_value h3⟩⟩

/-- Witness for C3 (amended) at a concrete `Applied → Screening` call. -/
theorem advance_appends_exactly_one_witness :
    WorkflowService.advance_candidate_stage 0 exampleState "a1" "Screening" ""
        false
      = (true, (WorkflowService.advance_candidate_stage 0 exampleState "a1"
        "Screening" "" false).2) ∧
    (∃ pd pd', findPipeline exampleState "a1" = some pd ∧
      findPipeline (WorkflowService.advance_candidate_stage 0 exampleState
        "a1" "Screening" "" false).2 "a1" = some pd' ∧
      ∃ e, pd'.stage_history = pd.stage_history ++ [e] ∧
        e.stage = "Screening" ∧
        pd'.current_stage = "Screening") :=
  ⟨by decide, advance_appends_exactly_one 0 exampleState "a1" "Screening" "" _
    (by decide)⟩

/-! ## C4, C5 and C6: the signaling relay's buffers -/

namespace VideoService

/-- `find?` skips a prefix in which nothing matches. -/
theorem find?_append_of_none {α : Type} (p : α → Bool) (l1 l2 : List α)
    (h : l1.find? p = none) : (l1 ++ l2).find? p = l2.find? p := by
  induction l1 with
  | nil => simp
  | cons x xs ih =>
      cases hp : p x
      · rw [List.find?_cons_of_neg _ (by simp [hp])] at h
        rw [List.cons_append, List.find?_cons_of_neg _ (by simp [hp])]
        exact ih h
      · rw [List.find?_cons_of_pos _ hp] at h
        simp at h

/-- Appending a fresh key makes it found. -/
theorem lookup_append_single {α : Type} (m : List (String × α)) (k : String)
    (v : α) (h : lookup m k = none) : lookup (m ++ [(k, v)]) k = some v := by
  unfold lookup at h ⊢
  cases hf : m.find? (fun kv => kv.1 == k) with
  | some w => rw [hf] at h; simp at h
  | none =>
      rw [find?_append_of_none _ _ _ hf]
      simp

/-- `setdefault(k, []).append(c)` appends `c` to the value at `k`. -/
theorem lookup_appendKey_self (m : List (String × List String)) (k c : String) :
    lookup (appendKey m k c) k = some ((lookup m k).getD [] ++ [c]) := by
  unfold appendKey
  cases hl : lookup m k with
  | none =>
      dsimp only
      rw [lookup_append_single m k [c] hl]
      simp
  | some v =>
      dsimp only
      unfold lookup at hl ⊢
      cases hf : m.find? (fun kv => kv.1 == k) with
      | none => rw [hf] at hl; simp at hl
      | some w =>
          rw [hf] at hl
          rw [find?_updateFirst]
          · rw [hf]
            simp at hl
            simp [hl]
          · exact fun a ha => ha

/-- `del d[k]` removes the key. -/
theorem lookup_delKey_self {α : Type} (m : List (String × α)) (k : String) :
    lookup (delKey m k) k = none := by
  unfold lookup delKey
  induction m with
  | nil => rfl
  | cons kv m ih =>
      cases hk : kv.1 == k
      · rw [List.filter_cons_of_pos (by simp [hk])]
        rw [List.find?_cons_of_neg _ (by simp [hk])]
        exact ih
      · rw [List.filter_cons_of_neg (by simp [hk])]
        exact ih

/-- A run over a concatenated trace is the two runs chained, with the
deliveries concatenated. -/
theorem run_append (st : RelayState) (evs1 evs2 : List Event) :
    run st (evs1 ++ evs2)
      = ((run (run st evs1).1 evs2).1,
         (run st evs1).2 ++ (run (run st evs1).1 evs2).2) := by
  induction evs1 generalizing st with
  | nil => simp [run]
  | cons e es ih => simp [run, ih, List.append_assoc]

/-- A one-event run is one step. -/
theorem run_singleton (st : RelayState) (e : Event) :
    run st [e] = ((step st e).1, (step st e).2) := by
  simp [run]

/-- ICE messages received from the candidate while no HR socket is registered
produce no deliveries and accumulate, in order, in `pending_ice_hr`. -/
theorem run_buffer_user_ice (st : RelayState) (app : String) (cs : List String)
    (hhr : app ∉ st.hr_sockets) :
    run st (cs.map (fun c => Event.recv Side.user app (Msg.ice c)))
      = ({ st with pending_ice_hr :=
            cs.foldl (fun m c => appendKey m app c) st.pending_ice_hr }, []) := by
  induction cs generalizing st with
  | nil => simp [run]
  | cons c cs ih =>
      have hstep : step st (Event.recv Side.user app (Msg.ice c))
          = ({ st with pending_ice_hr := appendKey st.pending_ice_hr app c },
             []) := by
        simp only [step, recvUser]
        rw [if_neg hhr]
      rw [List.map_cons]
      simp only [run]
      rw [hstep]
      dsimp only
      rw [ih { st with pending_ice_hr := appendKey st.pending_ice_hr app c }
        hhr]
      simp

/-- ICE messages received from HR while no candidate socket is registered
produce no deliveries and accumulate, in order, in `pending_ice`. -/
theorem run_buffer_hr_ice (st : RelayState) (app : String) (cs : List String)
    (husr : app ∉ st.user_sockets) :
    run st (cs.map (fun c => Event.recv Side.hr app (Msg.ice c)))
      = ({ st with pending_ice :=
            cs.foldl (fun m c => appendKey m app c) st.pending_ice }, []) := by
  induction cs generalizing st with
  | nil => simp [run]
  | cons c cs ih =>
      have hstep : step st (Event.recv Side.hr app (Msg.ice c))
          = ({ st with pending_ice := appendKey st.pending_ice app c }, []) := by
        simp only [step, recvHR]
        rw [if_neg husr]
      rw [List.map_cons]
      simp only [run]
      rw [hstep]
      dsimp only
      rw [ih { st with pending_ice := appendKey st.pending_ice app c } husr]
      simp

/-- Accumulated value of a fold of `appendKey`s over the same key. -/
theorem lookupD_foldl_appendKey (cs : List String)
    (m : List (String × List String)) (app : String) :
    (lookup (cs.foldl (fun m c => appendKey m app c) m) app).getD []
      = (lookup m app).getD [] ++ cs := by
  induction cs generalizing m with
  | nil => simp
  | cons c cs ih => simp [List.foldl_cons, ih, lookup_appendKey_self]

/-- Mapped ICE deliveries to HR all survive the HR-ICE filter. -/
theorem filter_hr_ice_map (app : String) (cs : List String) :
    (cs.map (fun c => (⟨Side.hr, app, OutMsg.ice c⟩ : Delivery))).filter
        (fun d => d.side == Side.hr && d.msg.isIce)
      = cs.map (fun c => ⟨Side.hr, app, OutMsg.ice c⟩) := by
  induction cs with
  | nil => rfl
  | cons c cs ih => simp [List.filter_cons, OutMsg.isIce, ih]

/-- Mapped ICE deliveries to the candidate all survive the user-ICE filter. -/
theorem filter_user_ice_map (app : String) (cs : List String) :
    (cs.map (fun c => (⟨Side.user, app, OutMsg.ice c⟩ : Delivery))).filter
        (fun d => d.side == Side.user && d.msg.isIce)
      = cs.map (fun c => ⟨Side.user, app, OutMsg.ice c⟩) := by
  induction cs with
  | nil => rfl
  | cons c cs ih => simp [List.filter_cons, OutMsg.isIce, ih]

/-- The ICE-to-HR deliveries of an HR connect are exactly the buffered
candidate→HR candidates, in buffer order. -/
theorem connectHR_flushes_ice (st : RelayState) (app : String) :
    ((step st (Event.connect Side.hr app)).2.filter
        (fun d => d.side == Side.hr && d.msg.isIce))
      = ((lookup st.pending_ice_hr app).getD []).map
          (fun c => ⟨Side.hr, app, OutMsg.ice c⟩) := by
  simp only [step, connectHR]
  dsimp only
  rw [List.filter_append]
  cases hl : lookup st.pending_ice_hr app <;>
    by_cases hm : app ∈ st.user_sockets <;>
      simp [hm, hl, filter_hr_ice_map]

/-- The ICE-to-candidate deliveries of a candidate connect are exactly the
buffered HR→candidate candidates, in buffer order. -/
theorem connectUser_flushes_ice (st : RelayState) (app : String) :
    ((step st (Event.connect Side.user app)).2.filter
        (fun d => d.side == Side.user && d.msg.isIce))
      = ((lookup st.pending_ice app).getD []).map
          (fun c => ⟨Side.user, app, OutMsg.ice c⟩) := by
  simp only [step, connectUser]
  dsimp only
  cases ho : lookup st.pending_offers app <;>
    cases hl : lookup st.pending_ice app <;>
      by_cases hm : app ∈ st.hr_sockets <;>
        simp [ho, hm, hl, List.filter_append, OutMsg.isIce, filter_user_ice_map]

/-- No ICE delivery is an offer. -/
theorem filter_offer_ice_map (s : Side) (app : String) (cs : List String) :
    (cs.map (fun c => (⟨s, app, OutMsg.ice c⟩ : Delivery))).filter
      (fun d => d.msg.isOffer) = [] := by
  induction cs with
  | nil => rfl
  | cons c cs ih => simp [List.filter_cons, OutMsg.isOffer, ih]

/-- A candidate connect with no buffered offer delivers no offer. -/
theorem connectUser_no_offer (st : RelayState) (app : String)
    (h : lookup st.pending_offers app = none) :
    ((step st (Event.connect Side.user app)).2.filter
      (fun d => d.msg.isOffer)) = [] := by
  simp only [step, connectUser]
  dsimp only
  rw [h]
  dsimp only
  cases hl : lookup st.pending_ice app <;>
    by_cases hm : app ∈ st.hr_sockets <;>
      simp [hl, hm, filter_offer_ice_map, OutMsg.isOffer]

/-- A candidate connect with a buffered offer delivers it once and removes
it from the buffer. -/
theorem connectUser_offer_once (st : RelayState) (app o : String)
    (h : lookup st.pending_offers app = some o) :
    (((step st (Event.connect Side.user app)).2.filter
        (fun d => d.msg.isOffer)) = [⟨Side.user, app, OutMsg.offer o⟩])
    ∧ lookup ((step st (Event.connect Side.user app)).1).pending_offers app
        = none := by
  simp only [step, connectUser]
  dsimp only
  rw [h]
  dsimp only
  constructor
  · cases hl : lookup st.pending_ice app <;>
      by_cases hm : app ∈ st.hr_sockets <;>
        simp [hl, hm, filter_offer_ice_map, OutMsg.isOffer]
  · exact lookup_delKey_self _ _

/-- C6: for every `application_id` and every sequence of ICE candidates one
side sends before its peer connects, no candidate is dropped: when the peer
connects, every buffered candidate is delivered to it, in the order received
by the relay.  Both directions are covered. -/
theorem buffered_ice_delivered_in_order (app : String) (cs : List String) :
    (((run relayInit ([Event.connect Side.user app]
        ++ cs.map (fun c => Event.recv Side.user app (Msg.ice c))
        ++ [Event.connect Side.hr app])).2.filter
        (fun d => d.side == Side.hr && d.msg.isIce))
      = cs.map (fun c => ⟨Side.hr, app, OutMsg.ice c⟩))
    ∧
    (((run relayInit ([Event.connect Side.hr app]
        ++ cs.map (fun c => Event.recv Side.hr app (Msg.ice c))
        ++ [Event.connect Side.user app])).2.filter
        (fun d => d.side == Side.user && d.msg.isIce))
      = cs.map (fun c => ⟨Side.user, app, OutMsg.ice c⟩)) := by
  constructor
  · have h1 : run relayInit [Event.connect Side.user app]
        = (⟨[], [app], [], [], [], []⟩, []) := by
      simp [run, step, connectUser, relayInit, addSock, lookup]
    have hAB : run relayInit ([Event.connect Side.user app]
          ++ cs.map (fun c => Event.recv Side.user app (Msg.ice c)))
        = (⟨[], [app], [], [], [],
            cs.foldl (fun m c => appendKey m app c) []⟩, []) := by
      rw [run_append, h1]
      dsimp only
      rw [run_buffer_user_ice (⟨[], [app], [], [], [], []⟩ : RelayState) app cs
        (by simp)]
      rfl
    rw [run_append, hAB]
    dsimp only
    rw [run_singleton]
    dsimp only
    rw [List.filter_append]
    rw [connectHR_flushes_ice]
    dsimp only
    rw [lookupD_foldl_appendKey]
    simp [lookup]
  · have h1 : run relayInit [Event.connect Side.hr app]
        = (⟨[app], [], [], [], [], []⟩, []) := by
      simp [run, step, connectHR, relayInit, addSock, lookup]
    have hAB : run relayInit ([Event.connect Side.hr app]
          ++ cs.map (fun c => Event.recv Side.hr app (Msg.ice c)))
        = (⟨[app], [], [], [],
            cs.foldl (fun m c => appendKey m app c) [], []⟩, []) := by
      rw [run_append, h1]
      dsimp only
      rw [run_buffer_hr_ice (⟨[app], [], [], [], [], []⟩ : RelayState) app cs
        (by simp)]
      rfl
    rw [run_append, hAB]
    dsimp only
    rw [run_singleton]
    dsimp only
    rw [List.filter_append]
    rw [connectUser_flushes_ice]
    dsimp only
    rw [lookupD_foldl_appendKey]
    simp [lookup]

/-- C4: the candidate's answer sent while the HR socket is not connected is
stored in `pending_answers`, but `handle_hr_connection` never reads that
buffer: when HR later connects, no answer is delivered (the model evaluated
at the failing trace). -/
theorem buffered_answer_never_flushed :
    (((run relayInit [Event.connect Side.user "a",
        Event.recv Side.user "a" (Msg.answer "S"),
        Event.connect Side.hr "a"]).2.filter (fun d => d.msg.isAnswer)) = [])
    ∧ lookup (run relayInit [Event.connect Side.user "a",
        Event.recv Side.user "a" (Msg.answer "S"),
        Event.connect Side.hr "a"]).1.pending_answers "a" = some "S" := by
  decide

/-- C5 counterexample: an ICE candidate buffered before the candidate's first
connection is delivered again on a second connection for the same key — the
ICE buffers are read on connect but never cleared, so delivery is not
exactly-once. -/
theorem buffered_ice_redelivered :
    ((run relayInit [Event.connect Side.hr "a",
        Event.recv Side.hr "a" (Msg.ice "X"),
        Event.connect Side.user "a",
        Event.disconnect Side.user "a",
        Event.connect Side.user "a"]).2.filter
        (fun d => d.side == Side.user && d.msg.isIce))
      = [⟨Side.user, "a", OutMsg.ice "X"⟩, ⟨Side.user, "a", OutMsg.ice "X"⟩] := by
  decide

/-- C5 (amended): only the pending OFFER obeys the deliver-once-then-remove
rule: on the first candidate connection it is delivered exactly once and
deleted, and a second connection receives no offer.  (The ICE buffers are
flushed on every connect and never cleared — see the counterexample — and the
pending answer is never delivered at all.) -/
theorem pending_offer_delivered_once (st : RelayState) (app o : String)
    (h : lookup st.pending_offers app = some o) :
    (((step st (Event.connect Side.user app)).2.filter
        (fun d => d.msg.isOffer)) = [⟨Side.user, app, OutMsg.offer o⟩])
    ∧ lookup ((step st (Event.connect Side.user app)).1).pending_offers app
        = none
    ∧ (((step ((step st (Event.connect Side.user app)).1)
        (Event.connect Side.user app)).2.filter
        (fun d => d.msg.isOffer)) = []) := by
  obtain ⟨hone, hdel⟩ := connectUser_offer_once st app o h
  exact ⟨hone, hdel, connectUser_no_offer _ app hdel⟩

/-- Witness for C5 (amended) on a concrete relay state with one buffered
offer. -/
theorem pending_offer_delivered_once_witness :
    (lookup offerBufferedState.pending_offers "a" = some "SDP-OFFER")
    ∧ ((((step offerBufferedState (Event.connect Side.user "a")).2.filter
        (fun d => d.msg.isOffer))
          = [⟨Side.user, "a", OutMsg.offer "SDP-OFFER"⟩])
    ∧ lookup ((step offerBufferedState
        (Event.connect Side.user "a")).1).pending_offers "a" = none
    ∧ (((step ((step offerBufferedState (Event.connect Side.user "a")).1)
        (Event.connect Side.user "a")).2.filter
        (fun d => d.msg.isOffer)) = [])) :=
  ⟨by decide,
    pending_offer_delivered_once offerBufferedState "a" "SDP-OFFER" (by decide)⟩

end VideoService

/-! ## C7: interview-slot conflict detection -/

/-- A successful `findSome?` is produced by some element of the list. -/
theorem exists_of_findSome? {α β : Type} {f : α → Option β} {b : β} :
    ∀ {l : List α}, l.findSome? f = some b → ∃ a, a ∈ l ∧ f a = some b := by
  intro l
  induction l with
  | nil => intro h; simp [List.findSome?] at h
  | cons x xs ih =>
      intro h
      cases hfx : f x with
      | some y =>
          refine ⟨x, List.mem_cons_self x xs, ?_⟩
          rw [hfx]
          simpa [List.findSome?, hfx] using h
      | none =>
          obtain ⟨a, ha, hfa⟩ := ih (by simpa [List.findSome?, hfx] using h)
          exact ⟨a, List.mem_cons_of_mem _ ha, hfa⟩

/-- C7 counterexample: an interview scheduled exactly at
`slot_start + duration` (9:00 for the 8:00 probe with 60-minute duration)
lies in the specification's CLOSED interval
`[slot_start - duration, slot_start + duration]`, but the code's `$lt` upper
bound excludes it, so `check_interview_conflicts` reports no conflict. -/
theorem conflict_upper_endpoint_not_detected :
    specConflictsClosed [boundaryInterview] "h1" 480 60 = true ∧
    InterviewService.check_interview_conflicts [boundaryInterview] "h1" 480 60
      = false := by
  decide

/-- C7 (amended): a slot returned by the slot search never conflicts with an
existing `Scheduled`/`In Progress` interview of that HR, where an interview
conflicts exactly when its scheduled time lies in the HALF-OPEN interval
`[slot_start - duration, slot_start + duration)` (closed below by the query's
`$gte`, open above by its `$lt`); if no conflict-free slot exists within the
day horizon, no slot is returned. -/
theorem slot_search_avoids_conflicts (ivs : List InterviewRec) (hr : String)
    (now t : Nat)
    (h : WorkflowService.find_next_available_slot ivs hr now 3 = some t) :
    InterviewService.check_interview_conflicts ivs hr t 60 = false ∧
    (∀ s d : Nat,
      InterviewService.check_interview_conflicts ivs hr s d = true ↔
        ∃ iv ∈ ivs, iv.hr_id = hr ∧
          (iv.status = "Scheduled" ∨ iv.status = "In Progress") ∧
          (s : Int) - d ≤ (iv.scheduled_datetime : Int) ∧
          (iv.scheduled_datetime : Int) < (s : Int) + d) := by
  constructor
  · unfold WorkflowService.find_next_available_slot at h
    obtain ⟨doff, _, hF⟩ := exists_of_findSome? h
    try dsimp only at hF
    by_cases hw : WorkflowService.weekday (now + 1440 * doff) ≥ 5
    · rw [if_pos hw] at hF
      exact Option.noConfusion hF
    · rw [if_neg hw] at hF
      obtain ⟨hour, _, hH⟩ := exists_of_findSome? hF
      try dsimp only at hH
      by_cases hc : InterviewService.check_interview_conflicts ivs hr
          (((now + 1440 * doff) / 1440) * 1440 + hour * 60) 60 = true
      · rw [if_pos hc] at hH
        exact Option.noConfusion hH
      · rw [if_neg hc] at hH
        injection hH with hH
        rw [← hH]
        simpa using hc
  · intro s d
    unfold InterviewService.check_interview_conflicts
    dsimp only
    rw [decide_eq_true_eq]
    rw [gt_iff_lt, List.length_pos_iff_exists_mem]
    constructor
    · rintro ⟨iv, hmem⟩
      have h1 := List.mem_of_mem_filter hmem
      have h2 := List.of_mem_filter hmem
      simp only [Bool.and_eq_true, Bool.or_eq_true, beq_iff_eq,
        decide_eq_true_eq] at h2
      exact ⟨iv, h1, h2.1.1.1, h2.1.1.2, h2.2, h2.1.2⟩
    · rintro ⟨iv, hmem, h1, h2, h3, h4⟩
      refine ⟨iv, List.mem_filter.mpr ⟨hmem, ?_⟩⟩
      simp only [Bool.and_eq_true, Bool.or_eq_true, beq_iff_eq,
        decide_eq_true_eq]
      exact ⟨⟨⟨h1, h2⟩, h4⟩, h3⟩

/-- Witness for C7 (amended): with no interviews booked, the search from
Monday midnight returns the 9:00 slot (minute 540), which is conflict-free. -/
theorem slot_search_avoids_conflicts_witness :
    WorkflowService.find_next_available_slot [] "h1" 0 3 = some 540 ∧
    (InterviewService.check_interview_conflicts [] "h1" 540 60 = false ∧
    (∀ s d : Nat,
      InterviewService.check_interview_conflicts [] "h1" s d = true ↔
        ∃ iv ∈ ([] : List InterviewRec), iv.hr_id = "h1" ∧
          (iv.status = "Scheduled" ∨ iv.status = "In Progress") ∧
          (s : Int) - d ≤ (iv.scheduled_datetime : Int) ∧
          (iv.scheduled_datetime : Int) < (s : Int) + d)) :=
  ⟨by decide, slot_search_avoids_conflicts [] "h1" 0 540 (by decide)⟩

/-! ## C8: persistence-layer behaviour on an unavailable connection -/

/-- C8 counterexample: with the client unavailable, `insert_one` RAISES
`Exception("Database connection not available")` instead of returning
`None`. -/
theorem insert_one_raises_when_unavailable :
    DatabaseRepository.insert_one unavailableDb "users"
        ([] : DatabaseRepository.Doc)
      = Except.error "Database connection not available" := by
  rfl

/-- C8 (amended): when the database connection is unavailable, `find_one`
returns `None`, `find_many` returns an empty result and `update_one` returns
`False` — none of them raises — but `insert_one` raises
`Exception("Database connection not available")` to its caller instead of
returning `None`. -/
theorem unavailable_connection_behaviour (db : DatabaseRepository.Database)
    (c : String) (q : DatabaseRepository.Doc → Bool)
    (d : DatabaseRepository.Doc) (h : db.connected = false) :
    DatabaseRepository.find_one db c q = none ∧
    DatabaseRepository.find_many db c q = [] ∧
    DatabaseRepository.update_one db c q d = (false, db) ∧
    DatabaseRepository.insert_one db c d
      = Except.error "Database connection not available" := by
  unfold DatabaseRepository.find_one DatabaseRepository.find_many
    DatabaseRepository.update_one DatabaseRepository.insert_one
  rw [h]
  simp

/-- Witness for C8 (amended) on a concrete unavailable database. -/
theorem unavailable_connection_behaviour_witness :
    unavailableDb.connected = false ∧
    (DatabaseRepository.find_one unavailableDb "users" (fun _ => true) = none ∧
    DatabaseRepository.find_many unavailableDb "users" (fun _ => true) = [] ∧
    DatabaseRepository.update_one unavailableDb "users" (fun _ => true)
        ([] : DatabaseRepository.Doc) = (false, unavailableDb) ∧
    DatabaseRepository.insert_one unavailableDb "users"
        ([] : DatabaseRepository.Doc)
      = Except.error "Database connection not available") :=
  ⟨rfl, unavailable_connection_behaviour unavailableDb "users" (fun _ => true)
    ([] : DatabaseRepository.Doc) rfl⟩

/-! ## C10: pipeline overview consistency -/

/-- Bumping a stage count raises the sum of counts by one. -/
theorem bumpCount_sum (m : List (String × Nat)) (s : String) :
    ((WorkflowService.bumpCount m s).map Prod.snd).sum
      = (m.map Prod.snd).sum + 1 := by
  induction m with
  | nil => simp [WorkflowService.bumpCount]
  | cons kv m ih =>
      obtain ⟨k, v⟩ := kv
      by_cases h : k = s
      · simp only [WorkflowService.bumpCount, if_pos h, List.map_cons,
          List.sum_cons]
        omega
      · simp only [WorkflowService.bumpCount, if_neg h, List.map_cons,
          List.sum_cons, ih]
        omega

/-- Folding `countStage` keeps the sum of per-stage counts equal to the
running total. -/
theorem countStage_fold_sum (records : List WorkflowService.PipeDoc) :
    ∀ acc : List (String × Nat) × Nat,
      (acc.1.map Prod.snd).sum = acc.2 →
      ((records.foldl WorkflowService.countStage acc).1.map Prod.snd).sum
        = (records.foldl WorkflowService.countStage acc).2 := by
  induction records with
  | nil => intro acc h; simpa using h
  | cons pd records ih =>
      intro acc h
      rw [List.foldl_cons]
      cases pd with
      | bad => exact ih acc h
      | dict cs =>
          refine ih _ ?_
          simp [WorkflowService.countStage, bumpCount_sum, h]

/-- C10: for every set of pipeline records the store returns,
`get_pipeline_overview` yields `total_candidates` equal to the sum of the
per-stage counts in `by_stage`; whenever `total_candidates > 0`,
`conversion_rates` maps each stage to `(count / total_candidates) * 100`
(else it is empty); and on an internal error the result is exactly
`{total_candidates: 0, by_stage: {}, conversion_rates: {}}`. -/
theorem pipeline_overview_consistent (records : List WorkflowService.PipeDoc) :
    (((WorkflowService.get_pipeline_overview (some records)).by_stage.map
        Prod.snd).sum
      = (WorkflowService.get_pipeline_overview
          (some records)).total_candidates)
    ∧ ((WorkflowService.get_pipeline_overview (some records)).conversion_rates
      = (if 0 < (WorkflowService.get_pipeline_overview
            (some records)).total_candidates then
          (WorkflowService.get_pipeline_overview (some records)).by_stage.map
            (fun kv => (kv.1,
              ((kv.2 : ℚ) / ((WorkflowService.get_pipeline_overview
                (some records)).total_candidates : ℚ)) * 100))
        else []))
    ∧ WorkflowService.get_pipeline_overview none = ⟨0, [], []⟩ :=
  ⟨countStage_fold_sum records ([], 0) rfl, rfl, rfl⟩

end JobSphere
